import Mathlib

/-!
# Verification of the NoteWebApp drawing canvas engine

Shallow embedding of `src/lib/components/drawing/DrawingCanvas.svelte`:
the shape model, the shape factory (`createShape`), the eraser hit tests
(`isPointInShape`, `erase`), the gesture lifecycle (`startDrawing`, `draw`,
`stopDrawing`), the history manager (`saveState`, `undo`, `redo`,
`clearDrawing`, `clearRedoStack`) and the session API (`saveDrawing`,
`loadDrawing`).

Modelling conventions:
* JavaScript numbers are modelled as `ℚ`.  Every JS number is a dyadic
  rational, and none of the verified properties depends on binary64
  rounding.
* The source compares `Math.sqrt e ≤ c` (resp. `>`).  Since `Math.sqrt`
  of a sum of squares is nonnegative, this equals `0 ≤ c ∧ e ≤ c^2`
  (resp. `c < 0 ∨ c^2 < e`); the embedding uses this exact squared form,
  so no square root is needed for any predicate.  The only square-root
  *value* stored anywhere is a circle's radius (see `createShape`).
* The history stacks hold `JSON.stringify(drawings)` strings and restore
  with `JSON.parse`.  JSON round-trip is the identity on these records,
  so snapshots are modelled as the shape list itself.
* JS `Array.push` appends at the end, `pop` removes from the end and
  `shift` removes the head; stacks are `List`s with their top at the end.
-/

namespace DrawingCanvas

/-- A canvas-space point, source: `{ x, y }`. -/
structure Point where
  x : ℚ
  y : ℚ
deriving DecidableEq, Repr

/-- The tool selection, source: `currentTool ∈ {pen, rectangle, circle, line, eraser}`. -/
inductive Tool where
  | pen
  | rectangle
  | circle
  | line
  | eraser
deriving DecidableEq, Repr

/-- The shared style attributes, source: `strokeColor`, `strokeWidth`, `fillColor`,
`roughness` component state. -/
structure ToolStyle where
  strokeColor : String
  strokeWidth : ℚ
  fillColor : String
  roughness : ℚ
deriving DecidableEq, Repr

/-- The tagged shape records the source pushes onto `drawings`. -/
inductive Shape where
  | path (points : List Point) (strokeColor : String) (strokeWidth : ℚ) (roughness : ℚ)
  | rectangle (x y width height : ℚ) (strokeColor : String) (strokeWidth : ℚ)
      (fillColor : String) (roughness : ℚ)
  | circle (x y radius : ℚ) (strokeColor : String) (strokeWidth : ℚ)
      (fillColor : String) (roughness : ℚ)
  | line (x1 y1 x2 y2 : ℚ) (strokeColor : String) (strokeWidth : ℚ) (roughness : ℚ)
deriving DecidableEq, Repr

/-- Squared Euclidean distance between two points.  The source always feeds
`Math.sqrt` of this into a comparison against a nonnegative quantity, so the
embedding works with the squared form throughout. -/
def distSq (p q : Point) : ℚ :=
  (p.x - q.x) ^ 2 + (p.y - q.y) ^ 2

/-- The component state the history manager acts on: `drawings`, `undoStack`,
`redoStack`.  Stack entries stand for `JSON.stringify(drawings)` strings; JSON
round-trip is the identity on these records, so they are kept as shape lists. -/
structure CanvasState where
  drawings : List Shape
  undoStack : List (List Shape)
  redoStack : List (List Shape)
deriving DecidableEq, Repr

/-- Source `saveState()`: `undoStack.push(JSON.stringify(drawings)); if
(undoStack.length > 50) undoStack.shift();`. -/
def saveState (s : CanvasState) : CanvasState :=
  let pushed := s.undoStack ++ [s.drawings]
  { s with undoStack := if 50 < pushed.length then pushed.tail else pushed }

/-- Source `clearRedoStack()`: `redoStack = [];`. -/
def clearRedoStack (s : CanvasState) : CanvasState :=
  { s with redoStack := [] }

/-- Source `undo()`: no-op on an empty `undoStack`; otherwise pushes the current
state to `redoStack`, pops `undoStack` and restores from the popped snapshot. -/
def undo (s : CanvasState) : CanvasState :=
  match s.undoStack.getLast? with
  | none => s
  | some prev =>
      { drawings := prev
        undoStack := s.undoStack.dropLast
        redoStack := s.redoStack ++ [s.drawings] }

/-- Source `redo()`: no-op on an empty `redoStack`; otherwise pushes the current
state to `undoStack` (note: without the 50-entry cap of `saveState`), pops
`redoStack` and restores from the popped snapshot. -/
def redo (s : CanvasState) : CanvasState :=
  match s.redoStack.getLast? with
  | none => s
  | some next =>
      { drawings := next
        undoStack := s.undoStack ++ [s.drawings]
        redoStack := s.redoStack.dropLast }

/-- Source `clearDrawing()`: `saveState(); drawings = []; redrawCanvas();
clearRedoStack();` (redraw is pure rendering and carries no model state). -/
def clearDrawing (s : CanvasState) : CanvasState :=
  clearRedoStack { saveState s with drawings := [] }

/-- Source `createShape()`.  `width`/`height` are `Math.abs` of the deltas; a
gesture with both deltas under 5 returns `null`.  The circle stores
`Math.sqrt(width*width + height*height) / 2`; that real square root is modelled
with `Rat.sqrt` — no verified claim inspects the stored radius value, every
claim involving circles is insensitive to it. -/
def createShape (tool : Tool) (startX startY currentX currentY : ℚ)
    (st : ToolStyle) : Option Shape :=
  let width := |currentX - startX|
  let height := |currentY - startY|
  if width < 5 ∧ height < 5 then none
  else
    let x := min startX currentX
    let y := min startY currentY
    match tool with
    | Tool.rectangle =>
        some (Shape.rectangle x y width height
          st.strokeColor st.strokeWidth st.fillColor st.roughness)
    | Tool.circle =>
        some (Shape.circle startX startY (Rat.sqrt (width * width + height * height) / 2)
          st.strokeColor st.strokeWidth st.fillColor st.roughness)
    | Tool.line =>
        some (Shape.line startX startY currentX currentY
          st.strokeColor st.strokeWidth st.roughness)
    | _ => none

/-- Source `isPointInShape(x, y, shape, radius)`.  Each branch is the exact
squared form of the source's comparison:
* rectangle: the expanded-bounding-box test, verbatim;
* circle: `sqrt(distSq) ≤ shape.radius + radius` equals
  `0 ≤ shape.radius + radius ∧ distSq ≤ (shape.radius + radius)^2`
  (both false for a negative bound, squaring is an equivalence otherwise);
* line: `|cross| / lineLength ≤ radius` with
  `lineLength = sqrt((x2-x1)^2 + (y2-y1)^2)` equals
  `0 ≤ radius ∧ 0 < len2 ∧ cross^2 ≤ radius^2 * len2` — for coincident
  endpoints the source divides 0 by 0 and the NaN comparison is false,
  matched by the `0 < len2` conjunct; for a negative radius the
  nonnegative quotient comparison is false, matched by `0 ≤ radius`. -/
def isPointInShape (x y : ℚ) (shape : Shape) (radius : ℚ) : Bool :=
  match shape with
  | Shape.rectangle rx ry w h _ _ _ _ =>
      decide (rx - radius ≤ x ∧ x ≤ rx + w + radius ∧
        ry - radius ≤ y ∧ y ≤ ry + h + radius)
  | Shape.circle cx cy r _ _ _ _ =>
      decide (0 ≤ r + radius ∧ (x - cx) ^ 2 + (y - cy) ^ 2 ≤ (r + radius) ^ 2)
  | Shape.line x1 y1 x2 y2 _ _ _ =>
      decide (0 ≤ radius ∧ 0 < (x2 - x1) ^ 2 + (y2 - y1) ^ 2 ∧
        ((y2 - y1) * x - (x2 - x1) * y + x2 * y1 - y2 * x1) ^ 2 ≤
          radius ^ 2 * ((x2 - x1) ^ 2 + (y2 - y1) ^ 2))
  | _ => false

/-- The point filter inside `erase` for `path` shapes: keep a point iff its
distance from the erase sample exceeds `eraseRadius`, i.e. (squared form)
`eraseRadius < 0 ∨ eraseRadius^2 < distSq`. -/
def erasePoints (x y eraseRadius : ℚ) (pts : List Point) : List Point :=
  pts.filter fun p => decide (eraseRadius < 0 ∨ eraseRadius ^ 2 < distSq p ⟨x, y⟩)

/-- Source `erase(x, y)` with `eraseRadius = strokeWidth * 3`: paths keep the
points outside the radius and survive only with more than one point left;
other shapes are dropped when `isPointInShape` hits. -/
def erase (x y strokeWidth : ℚ) (drawings : List Shape) : List Shape :=
  let eraseRadius := strokeWidth * 3
  drawings.filterMap fun drawing =>
    match drawing with
    | Shape.path pts sc sw ro =>
        let pts2 := erasePoints x y eraseRadius pts
        if 1 < pts2.length then some (Shape.path pts2 sc sw ro) else none
    | s => if isPointInShape x y s eraseRadius then none else some s

/-- The in-flight gesture state: the component's `startX`, `startY`,
`currentX`, `currentY`, `currentPath` alongside the canvas state, while
`isDrawing` is true. -/
structure GestureState where
  canvas : CanvasState
  startX : ℚ
  startY : ℚ
  currentX : ℚ
  currentY : ℚ
  currentPath : List Point
deriving DecidableEq, Repr

/-- Source `startDrawing(e)`: records the anchor, seeds `currentPath` for the
pen, applies the pointer-down erase sample for the eraser, and only then calls
`saveState()` — so the snapshot is taken after that first erase sample. -/
def startDrawing (tool : Tool) (st : ToolStyle) (pos : Point)
    (s : CanvasState) : GestureState :=
  let drawings1 :=
    if tool = Tool.eraser then erase pos.x pos.y st.strokeWidth s.drawings
    else s.drawings
  { canvas := saveState { s with drawings := drawings1 }
    startX := pos.x
    startY := pos.y
    currentX := pos.x
    currentY := pos.y
    currentPath := if tool = Tool.pen then [pos] else [] }

/-- Source `draw(e)` while `isDrawing`: updates `currentX`/`currentY`; the pen
appends to `currentPath`, the eraser applies another erase sample, shape tools
only refresh the preview (pure rendering). -/
def draw (tool : Tool) (st : ToolStyle) (pos : Point)
    (g : GestureState) : GestureState :=
  let g1 := { g with currentX := pos.x, currentY := pos.y }
  match tool with
  | Tool.pen => { g1 with currentPath := g1.currentPath ++ [pos] }
  | Tool.eraser =>
      { g1 with canvas :=
          { g1.canvas with
            drawings := erase pos.x pos.y st.strokeWidth g1.canvas.drawings } }
  | _ => g1

/-- Source `stopDrawing(e)`: commits the pen path when it has more than one
point, commits the shape factory's result for shape tools when non-null,
resets `currentPath` and calls `clearRedoStack()` unconditionally. -/
def stopDrawing (tool : Tool) (st : ToolStyle) (g : GestureState) : CanvasState :=
  let s := g.canvas
  let drawings2 :=
    if tool = Tool.pen ∧ 1 < g.currentPath.length then
      s.drawings ++ [Shape.path g.currentPath st.strokeColor st.strokeWidth st.roughness]
    else if tool ≠ Tool.pen ∧ tool ≠ Tool.eraser then
      match createShape tool g.startX g.startY g.currentX g.currentY st with
      | some shape => s.drawings ++ [shape]
      | none => s.drawings
    else s.drawings
  { drawings := drawings2
    undoStack := s.undoStack
    redoStack := [] }

/-- One full gesture: pointer-down at `start`, the move samples in order,
pointer-up. -/
def gesture (tool : Tool) (st : ToolStyle) (start : Point) (moves : List Point)
    (s : CanvasState) : CanvasState :=
  stopDrawing tool st (moves.foldl (fun g p => draw tool st p g) (startDrawing tool st start s))

/-- The user-level operations the history claims quantify over: a full
gesture, `undo`, `redo`, clear-all. -/
inductive Op where
  | gest (tool : Tool) (st : ToolStyle) (start : Point) (moves : List Point)
  | undoOp
  | redoOp
  | clearOp
deriving Repr

/-- Apply one operation to the canvas state. -/
def applyOp (op : Op) (s : CanvasState) : CanvasState :=
  match op with
  | Op.gest tool st start moves => gesture tool st start moves s
  | Op.undoOp => undo s
  | Op.redoOp => redo s
  | Op.clearOp => clearDrawing s

/-- Apply a sequence of operations, oldest first. -/
def applyOps (ops : List Op) (s : CanvasState) : CanvasState :=
  ops.foldl (fun s op => applyOp op s) s

/-- A session's state when the drawing surface opens: the given shape list
(empty, or pre-populated by `loadDrawing`) and empty history stacks. -/
def openState (d : List Shape) : CanvasState :=
  { drawings := d, undoStack := [], redoStack := [] }

/-- The persisted snapshot, source `drawingData = { drawings, width, height,
timestamp }`.  The `drawings` field is optional to model a JS record whose
`drawings` key is absent/`undefined`/`null` (an empty array is truthy in JS
and is modelled as `some []`). -/
structure DrawingData where
  drawings : Option (List Shape)
  width : ℚ
  height : ℚ
  timestamp : ℤ
deriving DecidableEq, Repr

/-- The open canvas session: the canvas element's backing size (set once from
the component's `width`/`height` props in `onMount`) plus the drawing state. -/
structure Session where
  canvasWidth : ℚ
  canvasHeight : ℚ
  state : CanvasState
deriving DecidableEq, Repr

/-- Source `saveDrawing()`: serializes `{ drawings, width: canvas.width,
height: canvas.height, timestamp: Date.now() }` and dispatches it. -/
def saveDrawing (s : Session) (now : ℤ) : DrawingData :=
  { drawings := some s.state.drawings
    width := s.canvasWidth
    height := s.canvasHeight
    timestamp := now }

/-- Source `loadDrawing(drawingData)`: `if (drawingData && drawingData.drawings)
{ drawings = drawingData.drawings; redrawCanvas(); }`.  The `Option` argument
models the `null`/absent snapshot (`onMount` guards `if (initialDrawing)`
before calling, with the same net effect). -/
def loadDrawing (dd : Option DrawingData) (s : Session) : Session :=
  match dd with
  | some d =>
      match d.drawings with
      | some ds => { s with state := { s.state with drawings := ds } }
      | none => s
  | none => s

/-- Spec-side notion for the line hit test, following the spec's words: the
Euclidean distance from the query point to the *infinite* line through the two
endpoints is at most `r`, i.e. `r` is nonnegative and some point
`(x1,y1) + t·((x2,y2)-(x1,y1))` with `t` ranging over all of `ℚ` lies within
`r` of the query point (squared form; over a line with rational data the
closest point has a rational parameter). -/
def nearInfiniteLine (qx qy x1 y1 x2 y2 r : ℚ) : Prop :=
  0 ≤ r ∧ ∃ t : ℚ,
    (x1 + t * (x2 - x1) - qx) ^ 2 + (y1 + t * (y2 - y1) - qy) ^ 2 ≤ r ^ 2

/-- The history invariant maintained by the user-level operations: the undo
stack never exceeds 50 entries and, while redo history exists, both stacks
together hold at most 50 snapshots. -/
def Inv (s : CanvasState) : Prop :=
  s.undoStack.length ≤ 50 ∧
    (s.redoStack ≠ [] → s.undoStack.length + s.redoStack.length ≤ 50)

/-- The component's default style: `strokeColor '#000000'`, `strokeWidth 2`,
`fillColor 'transparent'`, `roughness 1`. -/
def style0 : ToolStyle := ⟨"#000000", 2, "transparent", 1⟩

/-- A session holding one committed two-point freehand path near the origin. -/
def stateC1 : CanvasState :=
  { drawings := [Shape.path [⟨0, 0⟩, ⟨100, 0⟩] "#000000" 2 1]
    undoStack := []
    redoStack := [] }

/-- A session with one snapshot on the undo stack. -/
def stateC3 : CanvasState :=
  { drawings := [Shape.line 0 0 10 0 "#000000" 2 1]
    undoStack := [[]]
    redoStack := [] }

/-- A saved snapshot whose recorded size differs from the open canvas's size. -/
def snapC2 : DrawingData := ⟨some [], 1234, 777, 0⟩

/-- An open session on an 800×600 canvas with an empty shape list. -/
def sessC2 : Session := ⟨800, 600, openState []⟩

/-- An in-flight shape gesture whose pointer moved only (3,4) from its anchor. -/
def gestC7 : GestureState :=
  { canvas := openState [Shape.line 0 0 10 0 "#000000" 2 1]
    startX := 0
    startY := 0
    currentX := 3
    currentY := 4
    currentPath := [] }

/-- A session right after an undo: redo history is available. -/
def stateC10 : CanvasState :=
  { drawings := []
    undoStack := []
    redoStack := [[Shape.line 0 0 10 0 "#000000" 2 1]] }

/-- The committed shape of the `i`-th commit used in the history-bound
scenario: a two-point pen path from the origin to `(i+1, 0)`. -/
def commitShape (i : ℕ) : Shape :=
  Shape.path [⟨0, 0⟩, ⟨(i + 1 : ℕ), 0⟩] "#000000" 2 1

/-- Sixty single-move pen gestures, each committing `commitShape i`. -/
def commits60 : List Op :=
  (List.range 60).map fun i => Op.gest Tool.pen style0 ⟨0, 0⟩ [⟨(i + 1 : ℕ), 0⟩]

/-! ## Helper lemmas -/

theorem redo_of_redoStack_nil (s : CanvasState) (h : s.redoStack = []) :
    redo s = s := by
  simp [redo, h]

theorem saveState_undoStack_le (s : CanvasState) (h : s.undoStack.length ≤ 50) :
    (saveState s).undoStack.length ≤ 50 := by
  simp only [saveState]
  split
  · rename_i hcond
    simp only [List.length_append, List.length_cons, List.length_nil] at hcond
    simp only [List.length_tail, List.length_append, List.length_cons, List.length_nil]
    omega
  · rename_i hcond
    simp only [List.length_append, List.length_cons, List.length_nil] at hcond ⊢
    omega

theorem saveState_eq_of_lt (s : CanvasState) (h : s.undoStack.length < 50) :
    saveState s = { s with undoStack := s.undoStack ++ [s.drawings] } := by
  simp only [saveState]
  rw [if_neg]
  simp only [List.length_append, List.length_cons, List.length_nil]
  omega

theorem saveState_redoStack (s : CanvasState) :
    (saveState s).redoStack = s.redoStack := rfl

theorem draw_canvas_undoStack (tool : Tool) (st : ToolStyle) (p : Point)
    (g : GestureState) : (draw tool st p g).canvas.undoStack = g.canvas.undoStack := by
  cases tool <;> rfl

theorem foldl_draw_undoStack (tool : Tool) (st : ToolStyle) (moves : List Point) :
    ∀ g : GestureState,
      (moves.foldl (fun g p => draw tool st p g) g).canvas.undoStack =
        g.canvas.undoStack := by
  induction moves with
  | nil => intro g; rfl
  | cons m ms ih =>
      intro g
      rw [List.foldl_cons, ih, draw_canvas_undoStack]

theorem stopDrawing_undoStack (tool : Tool) (st : ToolStyle) (g : GestureState) :
    (stopDrawing tool st g).undoStack = g.canvas.undoStack := rfl

theorem gesture_undoStack (tool : Tool) (st : ToolStyle) (start : Point)
    (moves : List Point) (s : CanvasState) :
    (gesture tool st start moves s).undoStack =
      (startDrawing tool st start s).canvas.undoStack := by
  rw [gesture, stopDrawing_undoStack, foldl_draw_undoStack]

theorem gesture_redoStack (tool : Tool) (st : ToolStyle) (start : Point)
    (moves : List Point) (s : CanvasState) :
    (gesture tool st start moves s).redoStack = [] := rfl

theorem startDrawing_undoStack_le (tool : Tool) (st : ToolStyle) (start : Point)
    (s : CanvasState) (h : s.undoStack.length ≤ 50) :
    (startDrawing tool st start s).canvas.undoStack.length ≤ 50 := by
  unfold startDrawing
  exact saveState_undoStack_le _ h

theorem inv_applyOp (op : Op) (s : CanvasState) (h : Inv s) : Inv (applyOp op s) := by
  obtain ⟨h1, h2⟩ := h
  have hredo : s.redoStack.length = 0 ∨ s.undoStack.length + s.redoStack.length ≤ 50 := by
    rcases eq_or_ne s.redoStack [] with e | e
    · left; simp [e]
    · right; exact h2 e
  cases op with
  | gest tool st start moves =>
      show Inv (gesture tool st start moves s)
      refine ⟨?_, fun hne => absurd (gesture_redoStack tool st start moves s) hne⟩
      rw [gesture_undoStack]
      exact startDrawing_undoStack_le tool st start s h1
  | undoOp =>
      show Inv (undo s)
      unfold undo
      split
      · exact ⟨h1, h2⟩
      · rename_i prev heq
        have hne : s.undoStack ≠ [] := by
          intro e
          rw [e] at heq
          simp at heq
        have hpos : 0 < s.undoStack.length := List.length_pos.mpr hne
        constructor
        · simp only [List.length_dropLast]
          omega
        · intro _
          simp only [List.length_dropLast, List.length_append, List.length_cons,
            List.length_nil]
          omega
  | redoOp =>
      show Inv (redo s)
      unfold redo
      split
      · exact ⟨h1, h2⟩
      · rename_i next heq
        have hne : s.redoStack ≠ [] := by
          intro e
          rw [e] at heq
          simp at heq
        have hpos : 0 < s.redoStack.length := List.length_pos.mpr hne
        have hb : s.undoStack.length + s.redoStack.length ≤ 50 := h2 hne
        constructor
        · simp only [List.length_append, List.length_cons, List.length_nil]
          omega
        · intro _
          simp only [List.length_dropLast, List.length_append, List.length_cons,
            List.length_nil]
          omega
  | clearOp =>
      show Inv (clearDrawing s)
      refine ⟨?_, fun hne => absurd rfl hne⟩
      exact saveState_undoStack_le _ h1

theorem inv_applyOps (ops : List Op) :
    ∀ s : CanvasState, Inv s → Inv (applyOps ops s) := by
  induction ops with
  | nil => intro s h; exact h
  | cons op ops ih =>
      intro s h
      rw [applyOps, List.foldl_cons]
      exact ih _ (inv_applyOp op s h)

theorem draw_canvas_of_shapeTool (tool : Tool) (h1 : tool ≠ Tool.pen)
    (h2 : tool ≠ Tool.eraser) (st : ToolStyle) (p : Point) (g : GestureState) :
    draw tool st p g = { g with currentX := p.x, currentY := p.y } := by
  cases tool with
  | pen => exact absurd rfl h1
  | eraser => exact absurd rfl h2
  | _ => rfl

theorem foldl_draw_of_shapeTool (tool : Tool) (h1 : tool ≠ Tool.pen)
    (h2 : tool ≠ Tool.eraser) (st : ToolStyle) (moves : List Point) :
    ∀ g : GestureState,
      moves.foldl (fun g p => draw tool st p g) g =
        { g with currentX := (moves.getLastD ⟨g.currentX, g.currentY⟩).x,
                 currentY := (moves.getLastD ⟨g.currentX, g.currentY⟩).y } := by
  induction moves with
  | nil => intro g; rfl
  | cons m ms ih =>
      intro g
      rw [List.foldl_cons, draw_canvas_of_shapeTool tool h1 h2, ih,
        List.getLastD_cons]

theorem draw_canvas_of_eraser (st : ToolStyle) (p : Point) (g : GestureState) :
    (draw Tool.eraser st p g).canvas.drawings =
      erase p.x p.y st.strokeWidth g.canvas.drawings := rfl

theorem foldl_draw_undoRedo (tool : Tool) (st : ToolStyle) (moves : List Point) :
    ∀ g : GestureState,
      (moves.foldl (fun g p => draw tool st p g) g).canvas.undoStack =
          g.canvas.undoStack ∧
        (moves.foldl (fun g p => draw tool st p g) g).canvas.redoStack =
          g.canvas.redoStack := by
  induction moves with
  | nil => intro g; exact ⟨rfl, rfl⟩
  | cons m ms ih =>
      intro g
      rw [List.foldl_cons]
      refine ⟨(ih _).1.trans ?_, (ih _).2.trans ?_⟩ <;> cases tool <;> rfl

theorem stopDrawing_drawings_of_none (tool : Tool) (h1 : tool ≠ Tool.pen)
    (h2 : tool ≠ Tool.eraser) (st : ToolStyle) (g : GestureState)
    (hnone : createShape tool g.startX g.startY g.currentX g.currentY st = none) :
    (stopDrawing tool st g).drawings = g.canvas.drawings := by
  simp only [stopDrawing]
  rw [if_neg fun hc => h1 hc.1, if_pos ⟨h1, h2⟩, hnone]

/-! ## The claims -/

/-- C1 counterexample.  The claim: an eraser gesture beginning in shape-list
state `S` snapshots the state before any erasure of the gesture, so one
`undo()` right after the gesture restores `S`.  In the source, `startDrawing`
applies the pointer-down erase sample *before* calling `saveState()`, so the
snapshot misses whatever the first sample erased.  Concretely: `stateC1` holds
one two-point path; an eraser pointer-down at `(0,0)` (erase radius
`2 * 3 = 6`) erases the point `(0,0)`, leaving the path with one point, which
drops it from the shape list — all before the snapshot is taken.  The
subsequent `undo()` therefore restores the already-emptied list, not `S`. -/
theorem eraser_undo_not_restoring_cex :
    (undo (gesture Tool.eraser style0 ⟨0, 0⟩ [] stateC1)).drawings ≠
      stateC1.drawings := by
  norm_num [gesture, startDrawing, stopDrawing, saveState, undo, erase, erasePoints,
    distSq, stateC1, style0, List.filterMap, List.filter]

/-- C1 (amended): an eraser gesture takes exactly one history snapshot, at
gesture-start but only after the pointer-down erase sample has been applied;
a single `undo()` right after the gesture restores the shape list to the state
just after that first sample's erasure (hence to the pre-gesture state exactly
when the pointer-down sample erased nothing), and restores the undo stack to
its pre-gesture contents. -/
theorem eraser_gesture_snapshot_after_first_sample (st : ToolStyle)
    (start : Point) (moves : List Point) (s : CanvasState)
    (h : s.undoStack.length < 50) :
    (gesture Tool.eraser st start moves s).undoStack.length =
        s.undoStack.length + 1 ∧
      (undo (gesture Tool.eraser st start moves s)).drawings =
        erase start.x start.y st.strokeWidth s.drawings ∧
      (undo (gesture Tool.eraser st start moves s)).undoStack = s.undoStack := by
  have hstart : (startDrawing Tool.eraser st start s).canvas.undoStack =
      s.undoStack ++ [erase start.x start.y st.strokeWidth s.drawings] := by
    show (saveState
      { s with drawings := erase start.x start.y st.strokeWidth s.drawings }).undoStack = _
    rw [saveState_eq_of_lt
      { s with drawings := erase start.x start.y st.strokeWidth s.drawings } h]
  have hU : (gesture Tool.eraser st start moves s).undoStack =
      s.undoStack ++ [erase start.x start.y st.strokeWidth s.drawings] := by
    rw [gesture_undoStack, hstart]
  refine ⟨?_, ?_, ?_⟩
  · rw [hU]
    simp
  · unfold undo
    rw [hU, List.getLast?_concat]
  · unfold undo
    rw [hU, List.getLast?_concat]
    simp

/-- C1 amended-claim witness at a concrete input. -/
theorem eraser_gesture_snapshot_after_first_sample_witness :
    stateC1.undoStack.length < 50 ∧
      ((gesture Tool.eraser style0 ⟨0, 0⟩ [] stateC1).undoStack.length =
          stateC1.undoStack.length + 1 ∧
        (undo (gesture Tool.eraser style0 ⟨0, 0⟩ [] stateC1)).drawings =
          erase 0 0 style0.strokeWidth stateC1.drawings ∧
        (undo (gesture Tool.eraser style0 ⟨0, 0⟩ [] stateC1)).undoStack =
          stateC1.undoStack) :=
  ⟨by decide,
    eraser_gesture_snapshot_after_first_sample style0 ⟨0, 0⟩ [] stateC1 (by decide)⟩

/-- C2 counterexample.  The claim: `load(snapshot)` replaces both the shape
list and the canvas dimensions with those of the snapshot.  In the source,
`loadDrawing` assigns only `drawings`; `canvas.width`/`canvas.height` are set
once from the component props in `onMount` and never touched by `loadDrawing`.
Loading a snapshot recorded at 1234×777 into an 800×600 session leaves the
canvas at 800, not 1234. -/
theorem loadDrawing_keeps_canvas_size_cex :
    (loadDrawing (some snapC2) sessC2).canvasWidth ≠ snapC2.width := by decide

/-- C2 (amended): `load(snapshot)` replaces only the current shape list with
the snapshot's `drawings`; the canvas dimensions are left as they were (they
come from the component's props).  A `null`/absent snapshot, or one without a
`drawings` field, leaves the session unchanged — an empty canvas stays empty
and no error is surfaced (`loadDrawing` is total). -/
theorem loadDrawing_replaces_shapes_only (dd : Option DrawingData) (sess : Session) :
    (loadDrawing dd sess).canvasWidth = sess.canvasWidth ∧
      (loadDrawing dd sess).canvasHeight = sess.canvasHeight ∧
      (∀ (d : DrawingData) (ds : List Shape),
        dd = some d → d.drawings = some ds →
          (loadDrawing dd sess).state.drawings = ds) ∧
      (dd = none → loadDrawing dd sess = sess) := by
  refine ⟨?_, ?_, ?_, ?_⟩
  · rcases dd with - | d
    · rfl
    · rcases hds : d.drawings with - | ds <;> simp [loadDrawing, hds]
  · rcases dd with - | d
    · rfl
    · rcases hds : d.drawings with - | ds <;> simp [loadDrawing, hds]
  · intro d ds heq hds
    subst heq
    simp [loadDrawing, hds]
  · intro heq
    subst heq
    rfl

/-- C2 amended-claim witness at a concrete input. -/
theorem loadDrawing_replaces_shapes_only_witness :
    ((loadDrawing (some snapC2) sessC2).canvasWidth = sessC2.canvasWidth ∧
        (loadDrawing (some snapC2) sessC2).canvasHeight = sessC2.canvasHeight) ∧
      (loadDrawing (some snapC2) sessC2).state.drawings = [] ∧
      loadDrawing none sessC2 = sessC2 :=
  ⟨⟨(loadDrawing_replaces_shapes_only (some snapC2) sessC2).1,
      (loadDrawing_replaces_shapes_only (some snapC2) sessC2).2.1⟩,
    (loadDrawing_replaces_shapes_only (some snapC2) sessC2).2.2.1 snapC2 [] rfl rfl,
    (loadDrawing_replaces_shapes_only none sessC2).2.2.2 rfl⟩

/-- C3: whenever the undo stack is non-empty, `undo()` followed by `redo()`
returns the shape list exactly — element for element, in order — to its
pre-undo state. -/
theorem undo_redo_roundtrip (s : CanvasState) (h : s.undoStack ≠ []) :
    (redo (undo s)).drawings = s.drawings := by
  obtain ⟨u, l, hu⟩ := s.undoStack.eq_nil_or_concat.resolve_left h
  rw [List.concat_eq_append] at hu
  unfold undo redo
  rw [hu, List.getLast?_concat]
  simp [List.getLast?_concat]

/-- C3 witness at a concrete input. -/
theorem undo_redo_roundtrip_witness :
    stateC3.undoStack ≠ [] ∧ (redo (undo stateC3)).drawings = stateC3.drawings :=
  ⟨by decide, undo_redo_roundtrip stateC3 (by decide)⟩

/-- C4: saving the session to a `DrawingSnapshot` and loading that snapshot
back yields a shape list identical — same shapes, same order — to the one
saved, into whatever session it is loaded. -/
theorem save_load_roundtrip (s t : Session) (now : ℤ) :
    (loadDrawing (some (saveDrawing s now)) t).state.drawings =
      s.state.drawings := rfl

set_option maxRecDepth 10000 in
/-- C5: in every state reachable from an opened session by gestures, undo,
redo and clear-all, the undo stack holds at most 50 entries; and committing 60
shapes from an empty session leaves the undo stack with exactly the snapshots
of the 50 most recent commits (each commit's snapshot is the shape list as it
stood when that commit's gesture started), the 10 oldest having been evicted
first. -/
theorem undoStack_bounded_and_fifo :
    (∀ (ops : List Op) (d0 : List Shape),
        (applyOps ops (openState d0)).undoStack.length ≤ 50) ∧
      (applyOps commits60 (openState [])).undoStack =
        (List.range 50).map fun j => (List.range (10 + j)).map commitShape := by
  constructor
  · intro ops d0
    exact (inv_applyOps ops (openState d0)
      ⟨by simp [openState], fun hne => absurd rfl hne⟩).1
  · decide

/-- C6: after a gesture (committing a shape or applying an erase) and after
clear-all, the redo stack is empty and a subsequent `redo()` is a no-op; redo
history survives only between an undo and the next original action. -/
theorem redo_invalidation (tool : Tool) (st : ToolStyle) (start : Point)
    (moves : List Point) (s : CanvasState) :
    (gesture tool st start moves s).redoStack = [] ∧
      redo (gesture tool st start moves s) = gesture tool st start moves s ∧
      (clearDrawing s).redoStack = [] ∧
      redo (clearDrawing s) = clearDrawing s :=
  ⟨gesture_redoStack tool st start moves s,
    redo_of_redoStack_nil _ (gesture_redoStack tool st start moves s),
    rfl, redo_of_redoStack_nil _ rfl⟩

/-- C7: a rectangle, circle or line gesture whose end point differs from its
anchor by less than 5 in both coordinates makes the shape factory return
`null`, and the gesture's end leaves the committed shape list unchanged. -/
theorem small_gesture_rejected (tool : Tool) (st : ToolStyle) (g : GestureState)
    (htool : tool = Tool.rectangle ∨ tool = Tool.circle ∨ tool = Tool.line)
    (hx : |g.currentX - g.startX| < 5) (hy : |g.currentY - g.startY| < 5) :
    createShape tool g.startX g.startY g.currentX g.currentY st = none ∧
      (stopDrawing tool st g).drawings = g.canvas.drawings := by
  have hnone : createShape tool g.startX g.startY g.currentX g.currentY st = none := by
    simp [createShape, hx, hy]
  refine ⟨hnone, ?_⟩
  rcases htool with rfl | rfl | rfl <;> simp [stopDrawing, hnone]

/-- C7 witness at a concrete input. -/
theorem small_gesture_rejected_witness :
    ((Tool.rectangle = Tool.rectangle ∨ Tool.rectangle = Tool.circle ∨
          Tool.rectangle = Tool.line) ∧
        |gestC7.currentX - gestC7.startX| < 5 ∧
        |gestC7.currentY - gestC7.startY| < 5) ∧
      createShape Tool.rectangle gestC7.startX gestC7.startY gestC7.currentX
          gestC7.currentY style0 = none ∧
        (stopDrawing Tool.rectangle style0 gestC7).drawings =
          gestC7.canvas.drawings :=
  ⟨⟨Or.inl rfl, by norm_num [gestC7], by norm_num [gestC7]⟩,
    small_gesture_rejected Tool.rectangle style0 gestC7 (Or.inl rfl)
      (by norm_num [gestC7]) (by norm_num [gestC7])⟩

/-- C8: an erase sample at `(x, y)` with stroke width `w` (erase radius
`w * 3`) removes from each freehand path exactly the points within Euclidean
distance `w * 3` of the sample, keeps the others in their original order, and
drops from the shape list any path left with fewer than 2 points; in
particular a 3-point path whose middle point is within the radius and whose
end points are not becomes exactly the 2-point path of its end points. -/
theorem erase_path_points (x y w : ℚ) (sc : String) (sw ro : ℚ)
    (pts : List Point) (hw : 0 ≤ w) :
    (∀ p : Point, p ∈ erasePoints x y (w * 3) pts ↔
        p ∈ pts ∧ ¬ distSq p ⟨x, y⟩ ≤ (w * 3) ^ 2) ∧
      (erasePoints x y (w * 3) pts).Sublist pts ∧
      (∀ pre post : List Shape,
        erase x y w (pre ++ Shape.path pts sc sw ro :: post) =
          erase x y w pre ++
            (if 1 < (erasePoints x y (w * 3) pts).length
              then [Shape.path (erasePoints x y (w * 3) pts) sc sw ro] else []) ++
            erase x y w post) ∧
      (∀ p0 p1 p2 : Point,
        distSq p1 ⟨x, y⟩ ≤ (w * 3) ^ 2 →
        ¬ distSq p0 ⟨x, y⟩ ≤ (w * 3) ^ 2 →
        ¬ distSq p2 ⟨x, y⟩ ≤ (w * 3) ^ 2 →
        erase x y w [Shape.path [p0, p1, p2] sc sw ro] =
          [Shape.path [p0, p2] sc sw ro]) := by
  have hw3 : (0 : ℚ) ≤ w * 3 := by nlinarith
  have hnotlt : ¬ (w * 3 < 0) := not_lt.mpr hw3
  refine ⟨?_, List.filter_sublist pts, ?_, ?_⟩
  · intro p
    simp [erasePoints, List.mem_filter, decide_eq_true_eq, hnotlt, not_le]
  · intro pre post
    by_cases hlen : 1 < (erasePoints x y (w * 3) pts).length <;>
      simp [erase, List.filterMap_append, List.filterMap_cons, hlen]
  · intro p0 p1 p2 h1 h0 h2
    have hp0 : w * 3 < 0 ∨ (w * 3) ^ 2 < distSq p0 ⟨x, y⟩ := Or.inr (not_le.mp h0)
    have hp1 : ¬(w * 3 < 0 ∨ (w * 3) ^ 2 < distSq p1 ⟨x, y⟩) :=
      not_or.mpr ⟨hnotlt, not_lt.mpr h1⟩
    have hp2 : w * 3 < 0 ∨ (w * 3) ^ 2 < distSq p2 ⟨x, y⟩ := Or.inr (not_le.mp h2)
    simp [erase, erasePoints, List.filter_cons, hp0, hp1, hp2]

/-- C8 witness at a concrete input: erase radius 3, a 3-point path whose
middle point sits on the erase sample and whose end points are 10 and √200
away. -/
theorem erase_path_points_witness :
    (0 : ℚ) ≤ 1 ∧
      erase 0 0 1 [Shape.path [⟨10, 0⟩, ⟨0, 0⟩, ⟨10, 10⟩] "#000000" 2 1] =
        [Shape.path [⟨10, 0⟩, ⟨10, 10⟩] "#000000" 2 1] :=
  ⟨by norm_num,
    (erase_path_points 0 0 1 "#000000" 2 1 [⟨10, 0⟩, ⟨0, 0⟩, ⟨10, 10⟩]
        (by norm_num)).2.2.2
      ⟨10, 0⟩ ⟨0, 0⟩ ⟨10, 10⟩ (by norm_num [distSq]) (by norm_num [distSq])
      (by norm_num [distSq])⟩

set_option maxHeartbeats 1000000 in
/-- C9: for a line with distinct endpoints, the eraser hit test reports a hit
at radius `r` exactly when the Euclidean distance from the query point to the
*infinite* line through the endpoints is at most `r` — the parameter `t` of
the nearby line point is unrestricted, so points beyond the segment's ends
whose perpendicular distance is within `r` also register as hits. -/
theorem line_hit_iff_infinite_line (qx qy x1 y1 x2 y2 r : ℚ) (sc : String)
    (sw ro : ℚ) (h : ¬(x1 = x2 ∧ y1 = y2)) :
    isPointInShape qx qy (Shape.line x1 y1 x2 y2 sc sw ro) r = true ↔
      nearInfiniteLine qx qy x1 y1 x2 y2 r := by
  have hlen : 0 < (x2 - x1) ^ 2 + (y2 - y1) ^ 2 := by
    rcases not_and_or.mp h with hne | hne
    · have hsub : x2 - x1 ≠ 0 := sub_ne_zero.mpr fun e => hne e.symm
      nlinarith [sq_pos_of_ne_zero hsub, sq_nonneg (y2 - y1)]
    · have hsub : y2 - y1 ≠ 0 := sub_ne_zero.mpr fun e => hne e.symm
      nlinarith [sq_pos_of_ne_zero hsub, sq_nonneg (x2 - x1)]
  have hlenne : (x2 - x1) ^ 2 + (y2 - y1) ^ 2 ≠ 0 := ne_of_gt hlen
  simp only [isPointInShape, decide_eq_true_eq, nearInfiniteLine]
  constructor
  · rintro ⟨hr, -, hc⟩
    refine ⟨hr, ((qx - x1) * (x2 - x1) + (qy - y1) * (y2 - y1)) /
      ((x2 - x1) ^ 2 + (y2 - y1) ^ 2), ?_⟩
    have key : ((x1 + ((qx - x1) * (x2 - x1) + (qy - y1) * (y2 - y1)) /
            ((x2 - x1) ^ 2 + (y2 - y1) ^ 2) * (x2 - x1) - qx) ^ 2 +
          (y1 + ((qx - x1) * (x2 - x1) + (qy - y1) * (y2 - y1)) /
            ((x2 - x1) ^ 2 + (y2 - y1) ^ 2) * (y2 - y1) - qy) ^ 2) *
          ((x2 - x1) ^ 2 + (y2 - y1) ^ 2) =
        ((y2 - y1) * qx - (x2 - x1) * qy + x2 * y1 - y2 * x1) ^ 2 := by
      field_simp
      ring
    have h2 : ((x1 + ((qx - x1) * (x2 - x1) + (qy - y1) * (y2 - y1)) /
            ((x2 - x1) ^ 2 + (y2 - y1) ^ 2) * (x2 - x1) - qx) ^ 2 +
          (y1 + ((qx - x1) * (x2 - x1) + (qy - y1) * (y2 - y1)) /
            ((x2 - x1) ^ 2 + (y2 - y1) ^ 2) * (y2 - y1) - qy) ^ 2) *
          ((x2 - x1) ^ 2 + (y2 - y1) ^ 2) ≤
          r ^ 2 * ((x2 - x1) ^ 2 + (y2 - y1) ^ 2) := by
      rw [key]
      exact hc
    exact le_of_mul_le_mul_right h2 hlen
  · rintro ⟨hr, t, ht⟩
    refine ⟨hr, hlen, ?_⟩
    have key2 : ((x1 + t * (x2 - x1) - qx) ^ 2 + (y1 + t * (y2 - y1) - qy) ^ 2) *
          ((x2 - x1) ^ 2 + (y2 - y1) ^ 2) =
        ((qx - x1) * (x2 - x1) + (qy - y1) * (y2 - y1) -
            t * ((x2 - x1) ^ 2 + (y2 - y1) ^ 2)) ^ 2 +
          ((y2 - y1) * qx - (x2 - x1) * qy + x2 * y1 - y2 * x1) ^ 2 := by
      ring
    have h3 : ((x1 + t * (x2 - x1) - qx) ^ 2 + (y1 + t * (y2 - y1) - qy) ^ 2) *
          ((x2 - x1) ^ 2 + (y2 - y1) ^ 2) ≤
        r ^ 2 * ((x2 - x1) ^ 2 + (y2 - y1) ^ 2) :=
      mul_le_mul_of_nonneg_right ht hlen.le
    nlinarith [key2, h3,
      sq_nonneg ((qx - x1) * (x2 - x1) + (qy - y1) * (y2 - y1) -
        t * ((x2 - x1) ^ 2 + (y2 - y1) ^ 2))]

/-- C9 witness: the line from (0,0) to (10,0) at radius 2 and the query point
(20,1), which lies beyond the segment's right end yet within perpendicular
distance 1 of the infinite line — and indeed registers as a hit. -/
theorem line_hit_iff_infinite_line_witness :
    ¬((0 : ℚ) = 10 ∧ (0 : ℚ) = 0) ∧
      (isPointInShape 20 1 (Shape.line 0 0 10 0 "#000000" 2 1) 2 = true ↔
        nearInfiniteLine 20 1 0 0 10 0 2) ∧
      isPointInShape 20 1 (Shape.line 0 0 10 0 "#000000" 2 1) 2 = true :=
  ⟨by norm_num,
    line_hit_iff_infinite_line 20 1 0 0 10 0 2 "#000000" 2 1 (by norm_num),
    by simp only [isPointInShape, decide_eq_true_eq]; norm_num⟩

/-- C10: every gesture — pointer-down followed by pointer-up — ends by
clearing the redo stack unconditionally, even a shape gesture under the 5px
threshold that commits nothing and leaves the shape list unchanged; after an
undo, such a stray click makes redo a no-op although nothing changed. -/
theorem gesture_clears_redo_unconditionally (tool : Tool) (st : ToolStyle)
    (start : Point) (moves : List Point) (s : CanvasState) :
    (gesture tool st start moves s).redoStack = [] ∧
      redo (gesture tool st start moves s) = gesture tool st start moves s ∧
      ((tool = Tool.rectangle ∨ tool = Tool.circle ∨ tool = Tool.line) →
        |(moves.getLastD start).x - start.x| < 5 →
        |(moves.getLastD start).y - start.y| < 5 →
        (gesture tool st start moves s).drawings = s.drawings) := by
  refine ⟨gesture_redoStack tool st start moves s,
    redo_of_redoStack_nil _ (gesture_redoStack tool st start moves s), ?_⟩
  intro htool hx hy
  have h1 : tool ≠ Tool.pen := by rcases htool with rfl | rfl | rfl <;> simp
  have h2 : tool ≠ Tool.eraser := by rcases htool with rfl | rfl | rfl <;> simp
  have hstart : startDrawing tool st start s =
      { canvas := saveState s, startX := start.x, startY := start.y,
        currentX := start.x, currentY := start.y, currentPath := [] } := by
    unfold startDrawing
    rw [if_neg h2, if_neg h1]
  have hnone : createShape tool start.x start.y
      (moves.getLastD start).x (moves.getLastD start).y st = none := by
    simp only [createShape]
    rw [if_pos (⟨hx, hy⟩ : |(moves.getLastD start).x - start.x| < 5 ∧
      |(moves.getLastD start).y - start.y| < 5)]
  rw [gesture, hstart, foldl_draw_of_shapeTool tool h1 h2]
  refine (stopDrawing_drawings_of_none tool h1 h2 st _ ?_).trans rfl
  show createShape tool start.x start.y (moves.getLastD start).x
    (moves.getLastD start).y st = none
  exact hnone

/-- C10 witness: a rectangle gesture moving only (1,1) in a session whose redo
stack is non-empty — the gesture changes no shape yet empties the redo
stack. -/
theorem gesture_clears_redo_unconditionally_witness :
    (gesture Tool.rectangle style0 ⟨0, 0⟩ [⟨1, 1⟩] stateC10).redoStack = [] ∧
      redo (gesture Tool.rectangle style0 ⟨0, 0⟩ [⟨1, 1⟩] stateC10) =
        gesture Tool.rectangle style0 ⟨0, 0⟩ [⟨1, 1⟩] stateC10 ∧
      (gesture Tool.rectangle style0 ⟨0, 0⟩ [⟨1, 1⟩] stateC10).drawings =
        stateC10.drawings :=
  ⟨(gesture_clears_redo_unconditionally Tool.rectangle style0 ⟨0, 0⟩ [⟨1, 1⟩]
      stateC10).1,
    (gesture_clears_redo_unconditionally Tool.rectangle style0 ⟨0, 0⟩ [⟨1, 1⟩]
      stateC10).2.1,
    (gesture_clears_redo_unconditionally Tool.rectangle style0 ⟨0, 0⟩ [⟨1, 1⟩]
        stateC10).2.2
      (Or.inl rfl) (by norm_num [List.getLastD]) (by norm_num [List.getLastD])⟩

end DrawingCanvas
